import Mathlib

/-!
Shallow embedding of the manga-downloader repository (src/manga_downloader)
for checking the natural-language specification against the code.

Each definition is translated from the named Python function; comments cite
the source file.  Stateful methods of `MangaFetcherApp` become explicit state
passing over a `TuiState` record; fallible operations return `Except`/`Option`.
-/

namespace MangaDownloader

/-- `Manga` dataclass from sources/base.py. -/
structure Manga where
  slug : String
  title : String
  cover : Option String
deriving DecidableEq, Repr

/-- `Chapter` dataclass from sources/base.py. -/
structure Chapter where
  id : String
  slug : String
  number : Option String
  title : String
deriving DecidableEq, Repr

/-- Failure modes a `SourceClient` call can raise (network/HTTP error or a
parse failure of the scraped payload); the tui code has no handler for
either, so both propagate identically. -/
inductive SourceError where
  | network
  | parse
deriving DecidableEq, Repr

/-! ## utils.py -/

/-- The characters of `_INVALID_WIN_CHARS` in utils.py. -/
def _INVALID_WIN_CHARS : List Char := ['<', '>', ':', '\"', '/', '\\', '|', '?', '*']

/-- Strip characters satisfying `p` from both ends of a string
(Python `str.strip`). -/
def stripEnds (p : Char → Bool) (s : String) : String :=
  String.mk (((s.toList.dropWhile p).reverse.dropWhile p).reverse)

/-- `sanitize_filename` from utils.py: replace invalid Windows filename
characters with an underscore, strip surrounding whitespace then dots,
fall back to "untitled" when empty. -/
def sanitize_filename (name : String) : String :=
  let cleaned := String.mk
    (name.toList.map (fun c => if _INVALID_WIN_CHARS.contains c then '_' else c))
  let cleaned := stripEnds (fun c => c = '.') (stripEnds (fun c => c.isWhitespace) cleaned)
  if cleaned = "" then "untitled" else cleaned

/-- `guess_ext_from_url` from utils.py: take the URL up to the first `?`,
split off the extension (`os.path.splitext` semantics: last dot of the
basename, where leading dots of the basename never start an extension),
default to ".jpg" when there is none. -/
def guess_ext_from_url (url : String) : String :=
  let base := (url.splitOn "?").headD ""
  let name := (base.splitOn "/").getLastD ""
  let rest := String.mk (name.toList.dropWhile (fun c => c = '.'))
  let parts := rest.splitOn "."
  let ext := if parts.length ≤ 1 then "" else "." ++ parts.getLastD ""
  if ext = "" then ".jpg" else ext

/-! ## sources/registry.py -/

/-- Which concrete client class `get_client` instantiates. -/
inductive ClientKind where
  | kisslove
  | mangakatana
deriving DecidableEq, Repr

/-- `list_sources` from sources/registry.py. -/
def list_sources : List String := ["kisslove", "mangakatana"]

/-- Python `str.strip()` with no argument: strip whitespace at both ends. -/
def pyStrip (s : String) : String := stripEnds (fun c => c.isWhitespace) s

/-- Python `str.lower()`: lowercase each character. -/
def pyLower (s : String) : String := String.mk (s.toList.map Char.toLower)

/-- `get_client` from sources/registry.py: normalise with `.lower().strip()`;
"mangakatana" selects `MangaKatanaClient`, anything else falls through to
`KissLoveClient`. -/
def get_client (source : String) : ClientKind :=
  let s := pyStrip (pyLower source)
  if s = "mangakatana" then ClientKind.mangakatana else ClientKind.kisslove

/-! ## cli.py: range resolution -/

/-- Python `x or d` on an optional integer: `None` and `0` are falsy. -/
def pyOrInt (v : Option Int) (d : Int) : Int :=
  match v with
  | none => d
  | some x => if x = 0 then d else x

/-- `max(1, min(x, n))` from `_select_range` in cli.py. -/
def clampInt (x n : Int) : Int := max 1 (min x n)

/-- The bound computation of `_select_range` in cli.py: default unset start
to 1 and unset end to the chapter count, clamp each into [1, n], swap when
inverted. -/
def selectRangeBounds (n : Int) (start_arg end_arg : Option Int) : Int × Int :=
  let s := clampInt (pyOrInt start_arg 1) n
  let e := clampInt (pyOrInt end_arg n) n
  if s > e then (e, s) else (s, e)

/-- `_select_range` from cli.py: empty chapter list gives `[]`, otherwise
the Python slice `chapters[s - 1 : e]` of the resolved bounds. -/
def _select_range (chapters : List Chapter) (start_arg end_arg : Option Int) : List Chapter :=
  if chapters = [] then []
  else
    let p := selectRangeBounds (chapters.length : Int) start_arg end_arg
    ((chapters.drop (p.1 - 1).toNat).take (p.2 - (p.1 - 1)).toNat)

/-- The bound computation of `MangaFetcherApp.download_range` in tui.py:
`start = self.range_start or 1`, `end = self.range_end or len(self.chapters)`,
swap when inverted — note: no clamping into [1, chapterCount]. -/
def downloadRangeBounds (chapterCount : Nat) (range_start range_end : Option Int) : Int × Int :=
  let s := pyOrInt range_start 1
  let e := pyOrInt range_end (chapterCount : Int)
  if s > e then (e, s) else (s, e)

/-! ## tui.py: click-advance on the range selection -/

/-- `MangaFetcherApp._update_range_from_click` in tui.py, acting on the
`(range_start, range_end)` pair of the active context; `index` is the 0-based
list position, the stored bound is the 1-based `index + 1`. -/
def _update_range_from_click (index : Nat) (st : Option Int × Option Int) :
    Option Int × Option Int :=
  match st with
  | (none, e) => (some ((index : Int) + 1), e)
  | (some s, none) => (some s, some ((index : Int) + 1))
  | (some _, some _) => (some ((index : Int) + 1), none)

/-! ## tui.py: aggregation search over the selected sources

`MangaFetcherApp.search_manga` (lines 368-384).  A client's `search` is
modelled as a function from source identity and query to
`Except SourceError (List Manga)`; the Python loop appends each source's
results in order and has no exception handler, so a raised error aborts the
whole loop (the `Except` bind). -/

/-- The `for source in sources` loop body of `search_manga`: accumulate
`(source, manga)` pairs in order, aborting on the first client error exactly
as the unguarded Python loop does. -/
def searchAggGo (clients : String → String → Except SourceError (List Manga))
    (query : String) :
    List String → List (String × Manga) → Except SourceError (List (String × Manga))
  | [], results => Except.ok results
  | source :: rest, results =>
    match clients source query with
    | Except.error e => Except.error e
    | Except.ok mangas =>
        searchAggGo clients query rest (results ++ mangas.map (fun m => (source, m)))

/-- `MangaFetcherApp.search_manga`: with no selected source the method logs
and returns without producing any result (`none`); otherwise it runs the
aggregation loop over the selected sources in order. -/
def search_manga (clients : String → String → Except SourceError (List Manga))
    (selected_sources : List String) (query : String) :
    Option (Except SourceError (List (String × Manga))) :=
  if selected_sources = [] then none
  else some (searchAggGo clients query selected_sources [])

/-! ## tui.py: chapter-list load completion -/

/-- One entry of `MangaFetcherApp.manga_cache` (range bounds and cursor
position cached per `(source, slug)` key). -/
structure CacheEntry where
  range_start : Option Int
  range_end : Option Int
  chapter_index : Option Int
deriving DecidableEq, Repr

/-- The fields of `MangaFetcherApp` read or written by the completion of
`load_chapters` (display-only effects — list-view refresh, logging — are not
modelled). -/
structure TuiState where
  source_name : String
  selected_manga : Option Manga
  selected_manga_source : Option String
  chapters : List Chapter
  range_start : Option Int
  range_end : Option Int
  manga_cache : List ((String × String) × CacheEntry)
deriving DecidableEq, Repr

/-- The state update performed when `MangaFetcherApp.load_chapters` (tui.py
lines 386-404) completes for task argument `slug` with fetched `fetched`:
`self.chapters` is assigned unconditionally, and the range bounds are
restored from `manga_cache[(self.source_name, slug)]` (cleared when there is
no cache entry).  There is no check that `(source, slug)` is still the
active selection. -/
def load_chapters (st : TuiState) (slug : String) (fetched : List Chapter) : TuiState :=
  match List.lookup (st.source_name, slug) st.manga_cache with
  | some cache =>
      { st with chapters := fetched,
                range_start := cache.range_start, range_end := cache.range_end }
  | none =>
      { st with chapters := fetched, range_start := none, range_end := none }

/-! ## tui.py: download-completion reconciliation -/

/-- `MangaFetcherApp._sync_downloaded_from_disk` (tui.py lines 466-481).
The filesystem probe `fs` reports whether a path (as a component list)
exists.  If the sanitized manga directory is absent the set is emptied;
otherwise each chapter whose sanitized directory or sibling `.cbz` archive
exists contributes both its `id` and its `slug`.  The Python `set` is
modelled as a list with membership.

`syncStep` is the loop body: a chapter whose sanitized directory or sibling
`.cbz` exists contributes its `id` and `slug`. -/
def syncStep (fs : List String → Bool) (mangaDir : List String)
    (acc : List String) (ch : Chapter) : List String :=
  let chapterName := sanitize_filename ch.title
  if fs (mangaDir ++ [chapterName]) || fs (mangaDir ++ [chapterName ++ ".cbz"]) then
    acc ++ [ch.id, ch.slug]
  else acc

/-- The body of `_sync_downloaded_from_disk`: empty the set when the
sanitized manga directory is absent, otherwise fold `syncStep` over the
chapter list. -/
def _sync_downloaded_from_disk (fs : List String → Bool) (title : String)
    (chapters : List Chapter) : List String :=
  let mangaDir := ["downloads", sanitize_filename title]
  if fs mangaDir = false then []
  else chapters.foldl (syncStep fs mangaDir) []

/-! ## downloader.py -/

/-- Python `f"{idx:03d}"`: decimal, zero-padded on the left to width 3. -/
def pad3 (n : Nat) : String :=
  if n < 10 then "00" ++ toString n
  else if n < 100 then "0" ++ toString n
  else toString n

/-- The destination filename `f"{idx:03d}{ext}"` for the page at (1-based)
position `idx` with source URL `url` (download_chapter, downloader.py). -/
def fileNameFor (idx : Nat) (url : String) : String :=
  pad3 idx ++ guess_ext_from_url url

/-- Outcome of the page loop of `download_chapter`: the chapter directory
contents after the run (filename to content), the positions whose URL was
actually fetched (in order), and whether the loop ran to completion. -/
structure RunResult where
  files : List (String × String)
  fetched : List Nat
  success : Bool
deriving DecidableEq, Repr

/-- The `for idx, url in enumerate(pages, start=1)` loop of
`download_chapter` (downloader.py lines 36-55).  The chapter directory is an
association list of `(filename, content)`; `dest.exists()` becomes a lookup.
A page whose destination file already exists is skipped without issuing a
fetch; a fetch failure (`fetch url = none`, e.g. `raise_for_status`) aborts
the loop before anything is written for that page. -/
def runPages (fetch : String → Option String) :
    List (String × String) → List String → Nat → RunResult
  | files, [], _ => { files := files, fetched := [], success := true }
  | files, url :: rest, idx =>
    if (List.lookup (fileNameFor idx url) files).isSome then
      runPages fetch files rest (idx + 1)
    else
      match fetch url with
      | none => { files := files, fetched := [idx], success := false }
      | some content =>
        let r := runPages fetch (files ++ [(fileNameFor idx url, content)]) rest (idx + 1)
        { files := r.files, fetched := idx :: r.fetched, success := r.success }

/-- `pages = pages or client.chapter_pages(chapter.id)` in `download_chapter`:
Python `or` falls back when the supplied list is `None` or empty. -/
def resolvePages (suppliedPages : Option (List String)) (clientPages : List String) :
    List String :=
  match suppliedPages with
  | none => clientPages
  | some ps => if ps = [] then clientPages else ps

/-- Terminal status of a `download_chapter` call. -/
inductive DlStatus where
  | emptyPages
  | fetchFail
  | completed
deriving DecidableEq, Repr

/-- `download_chapter` (downloader.py lines 17-61), page-file part: resolve
the page list, raise `DownloadError` when it is empty (before any page file
is written), otherwise run the page loop.  Directory creation and optional
cbz packaging are not modelled. -/
def download_chapter (fetch : String → Option String)
    (suppliedPages : Option (List String)) (clientPages : List String)
    (files : List (String × String)) : DlStatus × List (String × String) :=
  let pages := resolvePages suppliedPages clientPages
  if pages = [] then (DlStatus.emptyPages, files)
  else
    let r := runPages fetch files pages 1
    (if r.success then DlStatus.completed else DlStatus.fetchFail, r.files)

/-! ## tui.py: session persistence -/

/-- JSON values, as produced by `json.dumps`/`json.loads`. -/
inductive JValue where
  | null
  | jbool (b : Bool)
  | jnum (n : Int)
  | jstr (s : String)
  | jarr (xs : List JValue)
  | jobj (fields : List (String × JValue))

/-- Encode an optional string field of the session payload. -/
def optStrJ (v : Option String) : JValue :=
  match v with
  | none => JValue.null
  | some s => JValue.jstr s

/-- Encode an optional integer field of the session payload. -/
def optIntJ (v : Option Int) : JValue :=
  match v with
  | none => JValue.null
  | some n => JValue.jnum n

/-- Python `needle in hay` on strings: substring containment. -/
def strContainsSub (hay needle : String) : Bool :=
  decide (List.IsInfix needle.toList hay.toList)

/-- `"dark" if self.theme and "dark" in self.theme else "light"` from
`_save_session` (`self.theme` may be unset). -/
def themeModeOf (theme : Option String) : String :=
  match theme with
  | some t => if strContainsSub t "dark" then "dark" else "light"
  | none => "light"

/-- `MangaFetcherApp._save_session` (tui.py lines 487-503): the JSON payload
written to the state file, from the app fields it serialises. -/
def _save_session (last_query : Option String) (selected_manga_source : Option String)
    (selected_manga : Option Manga) (range_start range_end : Option Int)
    (selected_sources : List String) (theme : Option String) : JValue :=
  JValue.jobj
    [ ("last_query", optStrJ last_query),
      ("selected_source", optStrJ selected_manga_source),
      ("selected_slug", optStrJ (selected_manga.map Manga.slug)),
      ("selected_title", optStrJ (selected_manga.map Manga.title)),
      ("range_start", optIntJ range_start),
      ("range_end", optIntJ range_end),
      ("sources", JValue.jarr (selected_sources.map JValue.jstr)),
      ("theme", JValue.jstr (themeModeOf theme)),
      ("theme_name", optStrJ theme) ]

/-- The app fields `_load_session` assigns. -/
structure SessionState where
  last_query : Option String
  last_selected_source : Option String
  last_selected_slug : Option String
  last_selected_title : Option String
  theme_mode : String
  theme_name : Option String
  selected_sources : List String
deriving DecidableEq, Repr

/-- The `__init__` defaults of the session-loaded fields. -/
def defaultSession : SessionState :=
  { last_query := none, last_selected_source := none, last_selected_slug := none,
    last_selected_title := none, theme_mode := "dark", theme_name := none,
    selected_sources := [] }

/-- What the state file offered to `_load_session` can look like: absent,
present but not parseable as JSON, or parsed to a JSON value. -/
inductive SessionFile where
  | missing
  | unparseable
  | parsed (payload : JValue)

/-- The uncaught exception `_load_session` can raise. -/
inductive PyError where
  | attributeError
deriving DecidableEq, Repr

/-- `payload.get(key)` under `isinstance(·, str)`: the string value when the
key maps to a JSON string, otherwise `None`. -/
def jgetStr (fields : List (String × JValue)) (key : String) : Option String :=
  match List.lookup key fields with
  | some (JValue.jstr s) => some s
  | _ => none

/-- `MangaFetcherApp._load_session` (tui.py lines 505-529) as a transformer
of the session fields.  A missing file and a `json.JSONDecodeError` both
return early (fields keep their current values); the `except` clause does
not cover the case of a file whose JSON parses to a non-object, where
`payload.get(...)` raises an uncaught `AttributeError`. -/
def _load_session (st : SessionState) (file : SessionFile) : Except PyError SessionState :=
  match file with
  | SessionFile.missing => Except.ok st
  | SessionFile.unparseable => Except.ok st
  | SessionFile.parsed (JValue.jobj fields) =>
    let theme := jgetStr fields "theme"
    let theme_mode := match theme with
      | some t => if t = "dark" ∨ t = "light" then t else st.theme_mode
      | none => st.theme_mode
    let theme_name := match jgetStr fields "theme_name" with
      | some t => if t = "" then st.theme_name else some t
      | none => st.theme_name
    let sources := match List.lookup "sources" fields with
      | some (JValue.jarr xs) =>
          xs.filterMap (fun v => match v with | JValue.jstr s => some s | _ => none)
      | _ => []
    Except.ok
      { last_query := jgetStr fields "last_query",
        last_selected_source := jgetStr fields "selected_source",
        last_selected_slug := jgetStr fields "selected_slug",
        last_selected_title := jgetStr fields "selected_title",
        theme_mode := theme_mode, theme_name := theme_name,
        selected_sources := sources }
  | SessionFile.parsed _ => Except.error PyError.attributeError

/-! # Theorems -/

/-- C10: every source-identity string whose lowercased, whitespace-stripped
form is not exactly "mangakatana" is mapped by the client registry to the
kisslove client rather than rejected. -/
theorem get_client_defaults_to_kisslove (source : String)
    (h : pyStrip (pyLower source) ≠ "mangakatana") :
    get_client source = ClientKind.kisslove := by
  unfold get_client
  simp [h]

/-- Witness for C10 at the empty string. -/
theorem get_client_defaults_to_kisslove_witness :
    pyStrip (pyLower "") ≠ "mangakatana" ∧ get_client "" = ClientKind.kisslove :=
  ⟨by decide, get_client_defaults_to_kisslove "" (by decide)⟩

/-- C3: the click-advance operation implements the exact three-state cycle —
start unset sets start, else end unset sets end, else reset start and clear
end — and from a cleared state three clicks at i1, i2, i3 yield
(start=i1+1, end unset), (start=i1+1, end=i2+1), (start=i3+1, end unset)
(the stored bound is the 1-based position of the clicked 0-based index). -/
theorem update_range_from_click_cycle (i1 i2 i3 index : Nat) (s e : Int) :
    _update_range_from_click index (none, none) = (some ((index : Int) + 1), none)
    ∧ _update_range_from_click index (none, some e) = (some ((index : Int) + 1), some e)
    ∧ _update_range_from_click index (some s, none) = (some s, some ((index : Int) + 1))
    ∧ _update_range_from_click index (some s, some e) = (some ((index : Int) + 1), none)
    ∧ _update_range_from_click i1 (none, none) = (some ((i1 : Int) + 1), none)
    ∧ _update_range_from_click i2 (_update_range_from_click i1 (none, none)) =
        (some ((i1 : Int) + 1), some ((i2 : Int) + 1))
    ∧ _update_range_from_click i3
          (_update_range_from_click i2 (_update_range_from_click i1 (none, none))) =
        (some ((i3 : Int) + 1), none) :=
  ⟨rfl, rfl, rfl, rfl, rfl, rfl, rfl⟩

/-- C2 counterexample: the range resolution of `download_range` in tui.py
does not clamp: with 5 chapters, a cached start bound of 10 and no end bound
resolve to the pair (5, 10), whose upper bound exceeds the chapter count —
the claimed invariant 1 ≤ lo ≤ hi ≤ N fails at this cited code site. -/
theorem download_range_bounds_not_clamped :
    downloadRangeBounds 5 (some 10) none = (5, 10)
    ∧ ¬ ((downloadRangeBounds 5 (some 10) none).2 ≤ (5 : Int)) := by
  constructor
  · rfl
  · decide

/-- C2 amended: the CLI range resolution `_select_range` does satisfy the
claim: for every chapter count n ≥ 1 and all start/end inputs (unset,
out-of-range, zero, negative or inverted), defaulting, clamping into [1, n]
and swapping yields a pair (lo, hi) with 1 ≤ lo ≤ hi ≤ n. -/
theorem select_range_bounds_valid (n : Int) (hn : 1 ≤ n) (start_arg end_arg : Option Int) :
    1 ≤ (selectRangeBounds n start_arg end_arg).1
    ∧ (selectRangeBounds n start_arg end_arg).1 ≤ (selectRangeBounds n start_arg end_arg).2
    ∧ (selectRangeBounds n start_arg end_arg).2 ≤ n := by
  have hs1 : 1 ≤ clampInt (pyOrInt start_arg 1) n := le_max_left 1 _
  have hs2 : clampInt (pyOrInt start_arg 1) n ≤ n := max_le hn (min_le_right _ _)
  have he1 : 1 ≤ clampInt (pyOrInt end_arg n) n := le_max_left 1 _
  have he2 : clampInt (pyOrInt end_arg n) n ≤ n := max_le hn (min_le_right _ _)
  simp only [selectRangeBounds]
  split
  next h => exact ⟨he1, le_of_lt h, hs2⟩
  next h => exact ⟨hs1, le_of_not_lt h, he2⟩

/-- Witness for C2 at n = 5 with inverted out-of-range inputs. -/
theorem select_range_bounds_valid_witness :
    1 ≤ (selectRangeBounds 5 (some 10) (some 3)).1
    ∧ (selectRangeBounds 5 (some 10) (some 3)).1 ≤ (selectRangeBounds 5 (some 10) (some 3)).2
    ∧ (selectRangeBounds 5 (some 10) (some 3)).2 ≤ 5 :=
  select_range_bounds_valid 5 (by decide) (some 10) (some 3)

/-- Concrete chapter fetched by a stale background load. -/
def chA : Chapter := { id := "idA", slug := "slugA", number := none, title := "A 1" }

/-- Concrete chapter of the currently selected manga. -/
def chB : Chapter := { id := "idB", slug := "slugB", number := none, title := "B 1" }

/-- The manga the user has navigated to while the stale load was running. -/
def mB : Manga := { slug := "b", title := "B", cover := none }

/-- App state at the moment a stale `load_chapters` task (started for slug
"a") completes: the active selection has since moved to slug "b". -/
def staleLoadState : TuiState :=
  { source_name := "kisslove", selected_manga := some mB,
    selected_manga_source := some "kisslove", chapters := [chB],
    range_start := some 2, range_end := some 3, manga_cache := [] }

/-- C4 counterexample: a completed background load for slug "a" overwrites
the chapter list and range bounds of the active context, although the active
selection is slug "b" ≠ "a" — there is no staleness guard in
`load_chapters`. -/
theorem load_chapters_stale_overwrite :
    staleLoadState.selected_manga = some mB
    ∧ mB.slug = "b"
    ∧ "a" ≠ "b"
    ∧ (load_chapters staleLoadState "a" [chA]).chapters = [chA]
    ∧ (load_chapters staleLoadState "a" [chA]).chapters ≠ staleLoadState.chapters
    ∧ (load_chapters staleLoadState "a" [chA]).range_start ≠ staleLoadState.range_start :=
  ⟨rfl, rfl, by decide, rfl, by decide, by decide⟩

/-- C4 amended: when a background chapter-list load completes, its results
are applied to visible state unconditionally — the fetched list replaces the
chapter list and the range bounds are reset from the cache entry for
(current source name, task slug) — regardless of whether that context is
still the active selection. -/
theorem load_chapters_applies_unconditionally (st : TuiState) (slug : String)
    (fetched : List Chapter) :
    (load_chapters st slug fetched).chapters = fetched
    ∧ (load_chapters st slug fetched).range_start =
        (match List.lookup (st.source_name, slug) st.manga_cache with
         | some c => c.range_start
         | none => none)
    ∧ (load_chapters st slug fetched).range_end =
        (match List.lookup (st.source_name, slug) st.manga_cache with
         | some c => c.range_end
         | none => none)
    ∧ (load_chapters st slug fetched).selected_manga = st.selected_manga := by
  unfold load_chapters
  cases h : List.lookup (st.source_name, slug) st.manga_cache <;> simp

/-- Concrete manga returned by source "a" in the aggregation examples. -/
def m1W : Manga := { slug := "m1", title := "M1", cover := none }

/-- Concrete manga returned by source "b" in the aggregation examples. -/
def m2W : Manga := { slug := "m2", title := "M2", cover := none }

/-- Clients where source "a" raises a network error and source "b" succeeds
with `[m2W]`. -/
def clFail : String → String → Except SourceError (List Manga) :=
  fun source _ => if source = "a" then Except.error SourceError.network else Except.ok [m2W]

/-- Clients where source "a" returns `[m1W]` and source "b" returns `[m2W]`. -/
def clOk : String → String → Except SourceError (List Manga) :=
  fun source _ => if source = "a" then Except.ok [m1W] else Except.ok [m2W]

/-- C1 counterexample: with active sources ["a", "b"] where "a" raises and
"b" would return `[m2W]`, the aggregate search does not return a result
containing the non-failing source's contribution — it aborts with the error
of source "a". -/
theorem search_manga_error_aborts :
    clFail "b" "q" = Except.ok [m2W]
    ∧ search_manga clFail ["a", "b"] "q" = some (Except.error SourceError.network) :=
  ⟨rfl, rfl⟩

/-- Error propagation through the aggregation loop: if any listed source
fails, the loop result is an error no matter the accumulator. -/
theorem searchAggGo_error (clients : String → String → Except SourceError (List Manga))
    (query : String) :
    ∀ (sources : List String) (acc : List (String × Manga)),
      (∃ s ∈ sources, ∃ e, clients s query = Except.error e) →
      ∃ e, searchAggGo clients query sources acc = Except.error e := by
  intro sources
  induction sources with
  | nil =>
    intro acc h
    rcases h with ⟨s, hs, _⟩
    exact absurd hs (List.not_mem_nil s)
  | cons s' rest ih =>
    intro acc h
    rcases h with ⟨s, hs, e, he⟩
    rcases List.mem_cons.mp hs with rfl | hmem
    · simp only [searchAggGo, he]
      exact ⟨e, rfl⟩
    · cases hc : clients s' query with
      | error e2 =>
        simp only [searchAggGo, hc]
        exact ⟨e2, rfl⟩
      | ok ms =>
        simp only [searchAggGo, hc]
        exact ih _ ⟨s, hmem, e, he⟩

/-- C1 amended: a failure raised by one source's search aborts the whole
aggregate call — instead of returning the unaffected contributions of the
other sources, `search_manga` produces an error whenever any selected source
fails. -/
theorem search_manga_failure_aborts
    (clients : String → String → Except SourceError (List Manga))
    (sources : List String) (query : String)
    (h : ∃ s ∈ sources, ∃ e, clients s query = Except.error e) :
    ∃ e, search_manga clients sources query = some (Except.error e) := by
  have hne : sources ≠ [] := by
    rintro rfl
    rcases h with ⟨s, hs, _⟩
    exact absurd hs (List.not_mem_nil s)
  unfold search_manga
  rw [if_neg hne]
  obtain ⟨e2, h2⟩ := searchAggGo_error clients query sources [] h
  exact ⟨e2, by rw [h2]⟩

/-- Witness for C1 (amended) at the concrete failing clients. -/
theorem search_manga_failure_aborts_witness :
    ∃ e, search_manga clFail ["a", "b"] "q" = some (Except.error e) :=
  search_manga_failure_aborts clFail ["a", "b"] "q"
    ⟨"a", by decide, SourceError.network, rfl⟩

/-- All-success run of the aggregation loop: the result is the accumulator
followed by the per-source result lists in source order. -/
theorem searchAggGo_all_ok (clients : String → String → Except SourceError (List Manga))
    (query : String) (f : String → List Manga) :
    ∀ (sources : List String) (acc : List (String × Manga)),
      (∀ s ∈ sources, clients s query = Except.ok (f s)) →
      searchAggGo clients query sources acc =
        Except.ok (acc ++ (sources.map (fun s => (f s).map (fun m => (s, m)))).flatten) := by
  intro sources
  induction sources with
  | nil =>
    intro acc _
    simp [searchAggGo]
  | cons s rest ih =>
    intro acc h
    have hs : clients s query = Except.ok (f s) := h s (List.mem_cons_self s rest)
    simp only [searchAggGo, hs]
    rw [ih (acc ++ (f s).map (fun m => (s, m))) (fun t ht => h t (List.mem_cons_of_mem s ht))]
    simp [List.append_assoc]

/-- C5: when every selected source succeeds, aggregation searches the
sources in selection order with the same query and returns the concatenation
of the per-source result lists, grouped by source with the per-source order
preserved (no interleaving). -/
theorem search_manga_concat_in_order
    (clients : String → String → Except SourceError (List Manga))
    (sources : List String) (query : String) (f : String → List Manga)
    (hne : sources ≠ [])
    (h : ∀ s ∈ sources, clients s query = Except.ok (f s)) :
    search_manga clients sources query =
      some (Except.ok ((sources.map (fun s => (f s).map (fun m => (s, m)))).flatten)) := by
  unfold search_manga
  rw [if_neg hne, searchAggGo_all_ok clients query f sources [] h]
  simp

/-- Witness for C5: over sources "a" (returning [m1W]) then "b" (returning
[m2W]) the aggregate is exactly [("a", m1W), ("b", m2W)]. -/
theorem search_manga_concat_in_order_witness :
    search_manga clOk ["a", "b"] "q" =
      some (Except.ok [("a", m1W), ("b", m2W)]) := by
  have h := search_manga_concat_in_order clOk ["a", "b"] "q"
    (fun s => if s = "a" then [m1W] else [m2W]) (by decide)
    (by
      intro s hs
      rcases List.mem_cons.mp hs with rfl | hs2
      · rfl
      · rcases List.mem_cons.mp hs2 with rfl | h3
        · rfl
        · exact absurd h3 (List.not_mem_nil s))
  simpa using h

/-- Membership in the reconciliation fold: an identifier is collected iff it
was already in the accumulator or some chapter of the list is judged present
by the probe and the identifier is its id or slug. -/
theorem syncStep_foldl_mem (fs : List String → Bool) (mangaDir : List String) :
    ∀ (chapters : List Chapter) (acc : List String) (x : String),
      x ∈ chapters.foldl (syncStep fs mangaDir) acc ↔
        x ∈ acc ∨ ∃ ch ∈ chapters,
          (fs (mangaDir ++ [sanitize_filename ch.title])
            || fs (mangaDir ++ [sanitize_filename ch.title ++ ".cbz"])) = true
          ∧ (x = ch.id ∨ x = ch.slug) := by
  intro chapters
  induction chapters with
  | nil =>
    intro acc x
    simp
  | cons ch rest ih =>
    intro acc x
    rw [List.foldl_cons, ih]
    by_cases hp : (fs (mangaDir ++ [sanitize_filename ch.title])
        || fs (mangaDir ++ [sanitize_filename ch.title ++ ".cbz"])) = true
    · simp only [syncStep]
      rw [if_pos hp]
      constructor
      · rintro (hmem | ⟨c, hc, hPc⟩)
        · rcases List.mem_append.mp hmem with hacc | hpair
          · exact Or.inl hacc
          · rcases List.mem_cons.mp hpair with rfl | h2
            · exact Or.inr ⟨ch, List.mem_cons_self ch rest, hp, Or.inl rfl⟩
            · rcases List.mem_cons.mp h2 with rfl | h3
              · exact Or.inr ⟨ch, List.mem_cons_self ch rest, hp, Or.inr rfl⟩
              · exact absurd h3 (List.not_mem_nil x)
        · exact Or.inr ⟨c, List.mem_cons_of_mem ch hc, hPc⟩
      · rintro (hacc | ⟨c, hc, hPc⟩)
        · exact Or.inl (List.mem_append.mpr (Or.inl hacc))
        · rcases List.mem_cons.mp hc with rfl | h2
          · rcases hPc.2 with rfl | rfl
            · exact Or.inl (List.mem_append.mpr (Or.inr (List.mem_cons_self _ _)))
            · exact Or.inl (List.mem_append.mpr
                (Or.inr (List.mem_cons_of_mem _ (List.mem_cons_self _ _))))
          · exact Or.inr ⟨c, h2, hPc⟩
    · simp only [syncStep]
      rw [if_neg hp]
      constructor
      · rintro (hacc | ⟨c, hc, hPc⟩)
        · exact Or.inl hacc
        · exact Or.inr ⟨c, List.mem_cons_of_mem ch hc, hPc⟩
      · rintro (hacc | ⟨c, hc, hPc⟩)
        · exact Or.inl hacc
        · rcases List.mem_cons.mp hc with rfl | h2
          · exact absurd hPc.1 hp
          · exact Or.inr ⟨c, h2, hPc⟩

/-- C6: under a coherent storage probe (nothing exists below an absent manga
directory), reconciliation collects an identifier iff it is the id or the
slug of a chapter whose sanitized directory or sibling `.cbz` archive the
probe reports present; both identifiers of every complete chapter are
included; and re-running with unchanged storage yields the identical set. -/
theorem sync_downloaded_from_disk_iff (fs : List String → Bool) (title : String)
    (chapters : List Chapter)
    (hfs : fs ["downloads", sanitize_filename title] = false →
      ∀ rest, fs (["downloads", sanitize_filename title] ++ rest) = false) :
    (∀ x, x ∈ _sync_downloaded_from_disk fs title chapters ↔
      ∃ ch ∈ chapters,
        (fs (["downloads", sanitize_filename title] ++ [sanitize_filename ch.title])
          || fs (["downloads", sanitize_filename title]
                  ++ [sanitize_filename ch.title ++ ".cbz"])) = true
        ∧ (x = ch.id ∨ x = ch.slug))
    ∧ (∀ ch ∈ chapters,
        (fs (["downloads", sanitize_filename title] ++ [sanitize_filename ch.title])
          || fs (["downloads", sanitize_filename title]
                  ++ [sanitize_filename ch.title ++ ".cbz"])) = true →
        ch.id ∈ _sync_downloaded_from_disk fs title chapters
        ∧ ch.slug ∈ _sync_downloaded_from_disk fs title chapters)
    ∧ _sync_downloaded_from_disk fs title chapters
        = _sync_downloaded_from_disk fs title chapters := by
  have main : ∀ x, x ∈ _sync_downloaded_from_disk fs title chapters ↔
      ∃ ch ∈ chapters,
        (fs (["downloads", sanitize_filename title] ++ [sanitize_filename ch.title])
          || fs (["downloads", sanitize_filename title]
                  ++ [sanitize_filename ch.title ++ ".cbz"])) = true
        ∧ (x = ch.id ∨ x = ch.slug) := by
    intro x
    by_cases h : fs ["downloads", sanitize_filename title] = false
    · have hempty : _sync_downloaded_from_disk fs title chapters = [] := by
        simp [_sync_downloaded_from_disk, h]
      rw [hempty]
      simp only [List.not_mem_nil, false_iff]
      rintro ⟨ch, _, hpc, _⟩
      rw [hfs h [sanitize_filename ch.title], hfs h [sanitize_filename ch.title ++ ".cbz"]] at hpc
      simp at hpc
    · have hrun : _sync_downloaded_from_disk fs title chapters =
          chapters.foldl (syncStep fs ["downloads", sanitize_filename title]) [] := by
        simp [_sync_downloaded_from_disk, h]
      rw [hrun, syncStep_foldl_mem]
      simp
  refine ⟨main, ?_, rfl⟩
  intro ch hch hpc
  exact ⟨(main ch.id).mpr ⟨ch, hch, hpc, Or.inl rfl⟩,
         (main ch.slug).mpr ⟨ch, hch, hpc, Or.inr rfl⟩⟩

/-- Witness for C6: a concrete probe where the manga directory and chapter
A's directory exist but nothing of chapter B does. -/
theorem sync_downloaded_from_disk_iff_witness :
    "idA" ∈ _sync_downloaded_from_disk
        (fun p => p ∈ [["downloads", "T"], ["downloads", "T", "A 1"]]) "T" [chA, chB]
      ↔ ∃ ch ∈ [chA, chB],
        ((fun p => p ∈ [["downloads", "T"], ["downloads", "T", "A 1"]])
            (["downloads", sanitize_filename "T"] ++ [sanitize_filename ch.title])
          || (fun p => p ∈ [["downloads", "T"], ["downloads", "T", "A 1"]])
            (["downloads", sanitize_filename "T"]
              ++ [sanitize_filename ch.title ++ ".cbz"])) = true
        ∧ ("idA" = ch.id ∨ "idA" = ch.slug) :=
  (sync_downloaded_from_disk_iff
      (fun p => p ∈ [["downloads", "T"], ["downloads", "T", "A 1"]]) "T" [chA, chB]
      (fun h => absurd h (by decide))).1 "idA"

/-- A key found in the front of an association list is still found, with the
same value, after appending entries. -/
theorem lookup_append_some {l1 l2 : List (String × String)} {k v : String}
    (h : List.lookup k l1 = some v) : List.lookup k (l1 ++ l2) = some v := by
  induction l1 with
  | nil => simp [List.lookup] at h
  | cons a t ih =>
    obtain ⟨k1, v1⟩ := a
    rw [List.cons_append]
    simp only [List.lookup] at h ⊢
    cases hk : (k == k1) with
    | true => rw [hk] at h; simpa [hk] using h
    | false => rw [hk] at h; simp only [hk]; exact ih h

/-- `isSome` version of `lookup_append_some`. -/
theorem lookup_append_isSome {l1 l2 : List (String × String)} {k : String}
    (h : (List.lookup k l1).isSome = true) :
    (List.lookup k (l1 ++ l2)).isSome = true := by
  obtain ⟨v, hv⟩ := Option.isSome_iff_exists.mp h
  rw [lookup_append_some hv]
  rfl

/-- Every position recorded as fetched by the page loop is at least the
starting index. -/
theorem runPages_fetched_ge (fetch : String → Option String) :
    ∀ (pages : List String) (files : List (String × String)) (idx k : Nat),
      k ∈ (runPages fetch files pages idx).fetched → idx ≤ k := by
  intro pages
  induction pages with
  | nil =>
    intro files idx k hk
    simp [runPages] at hk
  | cons url rest ih =>
    intro files idx k hk
    simp only [runPages] at hk
    by_cases hl : (List.lookup (fileNameFor idx url) files).isSome = true
    · rw [if_pos hl] at hk
      exact Nat.le_of_succ_le (ih files (idx + 1) k hk)
    · rw [if_neg hl] at hk
      cases hf : fetch url with
      | none =>
        rw [hf] at hk
        simp at hk
        omega
      | some content =>
        rw [hf] at hk
        simp at hk
        rcases hk with rfl | hk2
        · exact Nat.le_refl k
        · exact Nat.le_of_succ_le (ih _ (idx + 1) k hk2)

/-- The page loop never removes or overwrites an existing destination file:
any lookup that succeeded before the run succeeds with the same value
afterwards. -/
theorem runPages_preserves_lookup (fetch : String → Option String) :
    ∀ (pages : List String) (files : List (String × String)) (idx : Nat) (k v : String),
      List.lookup k files = some v →
      List.lookup k (runPages fetch files pages idx).files = some v := by
  intro pages
  induction pages with
  | nil =>
    intro files idx k v h
    simpa [runPages] using h
  | cons url rest ih =>
    intro files idx k v h
    simp only [runPages]
    by_cases hl : (List.lookup (fileNameFor idx url) files).isSome = true
    · rw [if_pos hl]
      exact ih files (idx + 1) k v h
    · rw [if_neg hl]
      cases hf : fetch url with
      | none => simpa using h
      | some content =>
        exact ih _ (idx + 1) k v (lookup_append_some h)

/-- When every page URL fetches successfully the page loop completes. -/
theorem runPages_success_total (fetch : String → Option String) :
    ∀ (pages : List String) (files : List (String × String)) (idx : Nat),
      (∀ u ∈ pages, (fetch u).isSome = true) →
      (runPages fetch files pages idx).success = true := by
  intro pages
  induction pages with
  | nil =>
    intro files idx _
    simp [runPages]
  | cons url rest ih =>
    intro files idx h
    simp only [runPages]
    by_cases hl : (List.lookup (fileNameFor idx url) files).isSome = true
    · rw [if_pos hl]
      exact ih files (idx + 1) (fun u hu => h u (List.mem_cons_of_mem url hu))
    · rw [if_neg hl]
      cases hf : fetch url with
      | none =>
        have := h url (List.mem_cons_self url rest)
        rw [hf] at this
        simp at this
      | some content =>
        exact ih _ (idx + 1) (fun u hu => h u (List.mem_cons_of_mem url hu))

/-- A page whose position-indexed destination file already exists before the
run is never fetched by the page loop. -/
theorem runPages_skip_of_present (fetch : String → Option String) :
    ∀ (pages : List String) (files : List (String × String)) (idx j : Nat)
      (hj : j < pages.length),
      (List.lookup (fileNameFor (idx + j) pages[j]) files).isSome = true →
      (idx + j) ∉ (runPages fetch files pages idx).fetched := by
  intro pages
  induction pages with
  | nil =>
    intro files idx j hj
    simp at hj
  | cons url rest ih =>
    intro files idx j hj hpresent hmem
    cases j with
    | zero =>
      simp only [List.getElem_cons_zero, Nat.add_zero] at hpresent
      simp only [runPages] at hmem
      rw [if_pos hpresent] at hmem
      have := runPages_fetched_ge fetch rest files (idx + 1) (idx + 0) hmem
      omega
    | succ j' =>
      have hj' : j' < rest.length := by
        simpa using Nat.lt_of_succ_lt_succ hj
      have harith : idx + (j' + 1) = (idx + 1) + j' := by omega
      rw [List.getElem_cons_succ] at hpresent
      simp only [runPages] at hmem
      by_cases hl : (List.lookup (fileNameFor idx url) files).isSome = true
      · rw [if_pos hl] at hmem
        rw [harith] at hpresent hmem
        exact ih files (idx + 1) j' hj' hpresent hmem
      · rw [if_neg hl] at hmem
        cases hf : fetch url with
        | none =>
          rw [hf] at hmem
          simp only [List.mem_singleton] at hmem
          omega
        | some content =>
          rw [hf] at hmem
          simp only [List.mem_cons] at hmem
          rcases hmem with heq | hmem2
          · omega
          · rw [harith] at hpresent hmem2
            exact ih _ (idx + 1) j' hj' (lookup_append_isSome hpresent) hmem2

/-- C7: (i) in any chapter-download invocation a page whose position-indexed
destination file already exists is skipped — no fetch is issued for it; and
after a first run with `fetch1` (for example a partial failure), a re-run
with `fetch2` succeeding on every page (ii) completes successfully,
(iii) leaves every already-present page file unchanged, and (iv) fetches
only pages whose destination file is still missing. -/
theorem download_chapter_resume
    (fetch1 fetch2 : String → Option String) (files0 : List (String × String))
    (pages : List String)
    (h2 : ∀ u ∈ pages, (fetch2 u).isSome = true) :
    (∀ (files : List (String × String)) (idx j : Nat) (hj : j < pages.length),
        (List.lookup (fileNameFor (idx + j) pages[j]) files).isSome = true →
        (idx + j) ∉ (runPages fetch1 files pages idx).fetched)
    ∧ (runPages fetch2 (runPages fetch1 files0 pages 1).files pages 1).success = true
    ∧ (∀ k v, List.lookup k (runPages fetch1 files0 pages 1).files = some v →
        List.lookup k
            (runPages fetch2 (runPages fetch1 files0 pages 1).files pages 1).files
          = some v)
    ∧ (∀ (j : Nat) (hj : j < pages.length),
        (List.lookup (fileNameFor (1 + j) pages[j])
            (runPages fetch1 files0 pages 1).files).isSome = true →
        (1 + j) ∉ (runPages fetch2 (runPages fetch1 files0 pages 1).files pages 1).fetched) := by
  refine ⟨?_, ?_, ?_, ?_⟩
  · intro files idx j hj hp
    exact runPages_skip_of_present fetch1 pages files idx j hj hp
  · exact runPages_success_total fetch2 pages _ 1 h2
  · intro k v h
    exact runPages_preserves_lookup fetch2 pages _ 1 k v h
  · intro j hj hp
    exact runPages_skip_of_present fetch2 pages _ 1 j hj hp

/-- Witness for C7: first run fetches page 1 and fails on page 2; the re-run
with a succeeding fetch completes. -/
theorem download_chapter_resume_witness :
    (runPages (fun _ => some "B")
        (runPages (fun u => if u = "a.png" then some "A" else none)
          [] ["a.png", "b.png"] 1).files
        ["a.png", "b.png"] 1).success = true :=
  (download_chapter_resume (fun u => if u = "a.png" then some "A" else none)
    (fun _ => some "B") [] ["a.png", "b.png"] (by decide)).2.1

/-- C9: a chapter download reports the empty-page-list download error exactly
when the resolved page list (supplied pages, falling back to the client's
list when the supplied value is absent or empty) is empty, and in that case
it does so before any page file is written. -/
theorem download_chapter_empty_pages
    (fetch : String → Option String) (suppliedPages : Option (List String))
    (clientPages : List String) (files : List (String × String)) :
    ((download_chapter fetch suppliedPages clientPages files).1 = DlStatus.emptyPages
      ↔ resolvePages suppliedPages clientPages = [])
    ∧ (resolvePages suppliedPages clientPages = [] →
        (download_chapter fetch suppliedPages clientPages files).2 = files) := by
  simp only [download_chapter]
  by_cases h : resolvePages suppliedPages clientPages = []
  · rw [if_pos h]
    simp [h]
  · rw [if_neg h]
    refine ⟨⟨?_, ?_⟩, ?_⟩
    · intro hst
      split at hst <;> simp_all
    · intro hc
      exact absurd hc h
    · intro hc
      exact absurd hc h

/-- Witness for C9: no pages supplied and the client returns an empty page
list — the download reports the empty-page error with the chapter directory
contents untouched. -/
theorem download_chapter_empty_pages_witness :
    ((download_chapter (fun _ => none) none [] [("001.jpg", "X")]).1 = DlStatus.emptyPages
      ↔ resolvePages none ([] : List String) = [])
    ∧ (download_chapter (fun _ => none) none [] [("001.jpg", "X")]).2 = [("001.jpg", "X")] :=
  ⟨(download_chapter_empty_pages (fun _ => none) none [] [("001.jpg", "X")]).1,
   (download_chapter_empty_pages (fun _ => none) none [] [("001.jpg", "X")]).2 rfl⟩

/-- Decoding the serialised source list recovers the original list. -/
theorem decode_sources (srcs : List String) :
    List.filterMap
      ((fun v => match v with | JValue.jstr s => some s | _ => none) ∘ JValue.jstr)
      srcs = srcs := by
  induction srcs with
  | nil => rfl
  | cons s t ih => simp [List.filterMap_cons, Function.comp, ih]

/-- C8 (session persistence): writing the session payload and loading it back
reproduces the last query, the last selection (source, slug, title), the
active source list and the theme value; a missing file and an unparseable
file keep the startup defaults without raising.  The final conjunct records
the divergence that makes the claim a code bug: a session file whose JSON
parses to a non-object (here the array `[]`) raises an uncaught
`AttributeError` at `payload.get(...)` instead of falling back to the
defaults. -/
theorem session_round_trip_and_nonobject_gap :
    (∀ (st0 : SessionState) (lq ssrc : Option String) (m : Option Manga)
        (rs re : Option Int) (srcs : List String) (th : Option String),
      _load_session st0 (SessionFile.parsed (_save_session lq ssrc m rs re srcs th)) =
        Except.ok
          { last_query := lq,
            last_selected_source := ssrc,
            last_selected_slug := m.map Manga.slug,
            last_selected_title := m.map Manga.title,
            theme_mode := themeModeOf th,
            theme_name := (match th with
              | some t => if t = "" then st0.theme_name else some t
              | none => st0.theme_name),
            selected_sources := srcs })
    ∧ _load_session defaultSession SessionFile.missing = Except.ok defaultSession
    ∧ _load_session defaultSession SessionFile.unparseable = Except.ok defaultSession
    ∧ _load_session defaultSession (SessionFile.parsed (JValue.jarr []))
        = Except.error PyError.attributeError := by
  refine ⟨?_, rfl, rfl, rfl⟩
  intro st0 lq ssrc m rs re srcs th
  simp only [_save_session, _load_session, jgetStr, List.lookup]
  cases lq <;> cases ssrc <;> cases m <;> cases th <;>
    simp [optStrJ, themeModeOf, decode_sources]

end MangaDownloader
